import Mathlib

/-!
Verification development for the invoice-PDF generation pipeline of the
`Projet-web-vf` repository (file `src/app/utils/generateInvoice.ts`).

The TypeScript source is shallowly embedded: numbers become `ℚ` (all values
involved are exact decimals), JS `Date`-like inputs become an inductive type
carrying their epoch-millisecond value, `undefined`/missing fields become
`Option`, and the external collaborators (DOM `fetch`, `FileReader`, image
decoding, Firestore point lookups, `localStorage`, and jsPDF's
`splitTextToSize` / locale date formatting) are parameters of an `Env`
record.  The observable result of `generateInvoicePDF` (which in the source
draws onto a jsPDF document and saves it) is modelled as a `Document` record
collecting every rendered datum the specification talks about, together with
the list of catalog ids actually looked up (the network-effect trace).
-/

namespace InvoiceGen

/-- JS truthiness fallback on strings: `a || b` (the empty string is falsy). -/
def jsOr (a b : String) : String := if a = "" then b else a

/-- JS truthiness fallback where the first operand may be `undefined`
(`none`): `a || b` with both `undefined` and `""` falsy. -/
def jsOrOpt : Option String → String → String
  | some s, b => if s = "" then b else s
  | none, b => b

/-- JS `String.prototype.trim` for the whitespace forms occurring in this
pipeline (ASCII space, tab, CR, LF), implemented structurally on the
character list. -/
def jsTrim (s : String) : String :=
  String.mk
    (((s.data.dropWhile Char.isWhitespace).reverse.dropWhile
      Char.isWhitespace).reverse)

/-- A JS value acceptable where the source builds a `Date`
(`Date | string | number`).  A `Date` instance is always truthy but may be
invalid (`none` milliseconds); a number is falsy iff it is `0` and yields a
valid date iff it is within the ECMAScript range; a string is falsy iff
empty and carries its (environment-determined) parse result. -/
inductive JsDateLike where
  | dateObj (ms : Option ℤ)
  | numVal (n : ℤ)
  | strVal (s : String) (parsed : Option ℤ)
deriving Repr, DecidableEq

/-- Model of `toDateSafe` (source lines 62–66): `if (!value) return null;`
then `new Date(value)` and a `NaN` check on `getTime()`. -/
def toDateSafe : Option JsDateLike → Option ℤ
  | none => none
  | some (.dateObj ms) => ms
  | some (.numVal n) =>
      if n = 0 then none
      else if n.natAbs ≤ 8640000000000000 then some n else none
  | some (.strVal s parsed) => if s = "" then none else parsed

/-- Model of JS `Number.prototype.toFixed(2)` for the exact decimal values
this pipeline produces: round to the nearest hundredth and print with two
fractional digits. -/
def toFixed2 (v : ℚ) : String :=
  let sign := if v < 0 then "-" else ""
  let c : ℤ := round (|v| * 100)
  let ip := c / 100
  let fp := c % 100
  sign ++ toString ip ++ "." ++ (if fp < 10 then "0" else "") ++ toString fp

/-- Model of `formatMoneyDt` (source line 60):
`${Number(value || 0).toFixed(2)} ${CURRENCY}` with `CURRENCY = "Dt"`.
On a rational value `value || 0` is the identity (`0 || 0 = 0`). -/
def formatMoneyDt (value : ℚ) : String := toFixed2 value ++ " Dt"

/-- Model of JS `String(q)` for the quantity cell; the quantities occurring
in this pipeline are integral, where JS prints the plain integer. -/
def qtyToString (q : ℚ) : String :=
  if q.den = 1 then toString q.num else toString q

/-- Company identity overlay (`InvoicePdfCompany`, source lines 11–16). -/
structure InvoicePdfCompany where
  name : Option String := none
  email : Option String := none
  phoneNumbers : Option (List String) := none
  addresses : Option (List String) := none
deriving Repr, DecidableEq

/-- Options record (`InvoicePdfOptions`, source lines 6–9). -/
structure InvoicePdfOptions where
  logoUrl : Option String := none
  company : Option InvoicePdfCompany := none
deriving Repr, DecidableEq

/-- A line item as the renderer reads it (`InvoicePdfItem`, source lines
18–27); every field is optional at runtime. -/
structure InvoicePdfItem where
  id : Option String := none
  productId : Option String := none
  reference : Option String := none
  sku : Option String := none
  description : Option String := none
  quantity : Option ℚ := none
  unitPrice : Option ℚ := none
  totalPrice : Option ℚ := none
deriving Repr, DecidableEq

/-- Client sub-record of the unified invoice shape (`InvoicePdfClient`,
source lines 29–34).  `name` is declared mandatory in the TS type but the
renderer reads it defensively (`invoice.client?.name ?? "-"`), and a
misclassified call can produce an object without it, so it is optional
here. -/
structure InvoicePdfClient where
  name : Option String := none
  email : Option String := none
  phone : Option String := none
  location : Option String := none
deriving Repr, DecidableEq

/-- The unified invoice record (`InvoicePdfData`, source lines 36–50), with
every field optional as read at runtime (the renderer guards each access). -/
structure InvoicePdfData where
  invoiceNumber : Option String := none
  issueDate : Option JsDateLike := none
  dueDate : Option JsDateLike := none
  createdAt : Option JsDateLike := none
  status : Option String := none
  clientCIN : Option String := none
  client : Option InvoicePdfClient := none
  items : Option (List InvoicePdfItem) := none
  subtotal : Option ℚ := none
  taxRate : Option ℚ := none
  taxAmount : Option ℚ := none
  totalAmount : Option ℚ := none
  notes : Option String := none
deriving Repr, DecidableEq

/-- A legacy `Client` (types/index) as the normalizer reads it; fields are
optional because the entry point may receive an arbitrarily shaped object
(see the misclassification analysis for C10). -/
structure Client where
  cin : Option String := none
  name : Option String := none
  email : Option String := none
  phone : Option String := none
  location : Option String := none
  status : Option String := none
  createdAt : Option JsDateLike := none
deriving Repr, DecidableEq

/-- A legacy `OrderItem` (types/index) as the normalizer reads it. -/
structure OrderItem where
  id : Option String := none
  productId : Option String := none
  reference : Option String := none
  description : Option String := none
  quantity : Option ℚ := none
  unitPrice : Option ℚ := none
  totalPrice : Option ℚ := none
deriving Repr, DecidableEq

/-- A legacy `Order` (types/index) as the normalizer reads it. -/
structure Order where
  orderNumber : Option String := none
  createdAt : Option JsDateLike := none
  items : Option (List OrderItem) := none
  subtotal : Option ℚ := none
  taxRate : Option ℚ := none
  taxAmount : Option ℚ := none
  totalAmount : Option ℚ := none
deriving Repr, DecidableEq

/-- The parsed `companyProfile` JSON as the loader inspects it: a field is
`some s` when it is a string (resp. `some l` when it is an array, with its
elements already passed through `String(x ?? "")`), `none` when absent or of
another type. -/
structure ParsedCompany where
  name : Option String := none
  email : Option String := none
  phoneNumbers : Option (List String) := none
  addresses : Option (List String) := none
deriving Repr, DecidableEq

/-- State of the `localStorage` entry `"companyProfile"`: missing (or empty
string — both falsy for `if (!raw)`), a string that fails `JSON.parse`, or a
successfully parsed object. -/
inductive StorageState where
  | absent
  | invalidJson
  | parsed (p : ParsedCompany)
deriving Repr, DecidableEq

/-- Normalization of the `phoneNumbers`/`addresses` arrays (source lines
80–85 and 90–91): when the field is an array, trim each element and drop
empties; keep the resulting list only when non-empty
(`phoneNumbers?.length ? phoneNumbers : undefined`). -/
def presentList (o : Option (List String)) : Option (List String) :=
  match o.map (fun l => (l.map jsTrim).filter (· ≠ "")) with
  | some l => if l = [] then none else some l
  | none => none

/-- Model of `loadCompanyProfileFromStorage` (source lines 68–99); the
browser-environment guard is implicit (the whole pipeline models the
browser path, `generateInvoicePDF` being a no-op otherwise). -/
def loadCompanyProfileFromStorage : StorageState → Option InvoicePdfCompany
  | .absent => none
  | .invalidJson => none
  | .parsed p =>
      let phones := presentList p.phoneNumbers
      let addrs := presentList p.addresses
      let name := p.name.map jsTrim
      let email := p.email.map jsTrim
      if name.getD "" = "" ∧ email.getD "" = "" ∧ phones = none ∧ addrs = none
      then none
      else some { name := name, email := email, phoneNumbers := phones, addresses := addrs }

/-- Outcome of `fetch(url)` followed by the `FileReader` decode in
`loadImageAsDataUrl`: network rejection, a non-`ok` response, or a blob
whose decode yields `some dataUrl` (or fails, `none`). -/
inductive FetchOutcome where
  | netError
  | notOk
  | ok (decoded : Option String)
deriving Repr, DecidableEq

/-- Model of `loadImageAsDataUrl` (source lines 101–119): any non-success
response, network failure, or reader failure is caught and yields `null`. -/
def loadImageAsDataUrl (fetchLogo : String → FetchOutcome) (url : String) :
    Option String :=
  match fetchLogo url with
  | .netError => none
  | .notOk => none
  | .ok decoded => decoded

/-- Model of `getImageAspectRatio` (source lines 121–141): decode the image
dimensions (`none` on load failure), reject zero width/height, and reject a
non-positive ratio.  Named without the `Ratio` suffix of the source. -/
def getImageAspect (imageDims : String → Option (ℚ × ℚ)) (dataUrl : String) :
    Option ℚ :=
  match imageDims dataUrl with
  | none => none
  | some (w, h) =>
      if w = 0 ∨ h = 0 then none
      else if w / h ≤ 0 then none else some (w / h)

/-- A catalog document for a product id: `data()` exposes an optional
`reference` string field. -/
structure CatalogRecord where
  reference : Option String := none
deriving Repr, DecidableEq

/-- Result of the Firestore point lookup `getDoc(doc(db, "products", id))`:
the document may be missing, present, or the lookup may throw. -/
inductive LookupResult where
  | missing
  | found (rcd : CatalogRecord)
  | lookupError
deriving Repr, DecidableEq

/-- One entry of the reference map (source lines 153–162): a missing record
or a lookup error falls back to the id itself; a found record contributes
`data.reference ?? snap.id` (where `snap.id` is the queried id). -/
def resolveOne (catalog : String → LookupResult) (productId : String) :
    String × String :=
  match catalog productId with
  | .missing => (productId, productId)
  | .found rcd => (productId, rcd.reference.getD productId)
  | .lookupError => (productId, productId)

/-- Insertion-order de-duplication, the behaviour of
`Array.from(new Set(l))` (first occurrence kept). -/
def insertionDedup (l : List String) : List String :=
  l.foldl (fun acc x => if x ∈ acc then acc else acc ++ [x]) []

/-- Result of `loadProductReferenceMap`: the association list backing the
returned object, plus the list of catalog ids actually queried (the
network-effect trace). -/
structure RefMapResult where
  entries : List (String × String)
  lookups : List String
deriving Repr, DecidableEq

/-- Model of `loadProductReferenceMap` (source lines 143–169): drop empty
ids (`filter(Boolean)`), de-duplicate, return the empty map with no lookup
when nothing remains; `importOk` models the dynamic
`import("firebase/firestore")`, whose failure is caught by the outer
`try` and yields the empty map. -/
def loadProductReferenceMap (catalog : String → LookupResult)
    (importOk : Bool) (productIds : List String) : RefMapResult :=
  let uniqueIds := insertionDedup (productIds.filter (· ≠ ""))
  if uniqueIds = [] then ⟨[], []⟩
  else if importOk then ⟨uniqueIds.map (resolveOne catalog), uniqueIds⟩
  else ⟨[], []⟩

/-- Lookup in the association list backing `productReferenceMap[k]`
(`Object.fromEntries`; the keys produced here are pairwise distinct, so
first-match lookup agrees with the object semantics). -/
def mapLookup (m : List (String × String)) (k : String) : Option String :=
  (m.find? (fun e => e.1 == k)).map Prod.snd

/-- A label/value row of a section box (`KeyValueRow`, source lines
171–174). -/
structure KeyValueRow where
  label : String
  value : String
deriving Repr, DecidableEq

/-- Wrapped-line count of `drawSectionBox` (source lines 187–191): each
value is trimmed, replaced by a dash when empty, wrapped by
`splitTextToSize` to `w − 2·padX − labelW = w − 32`, and an empty wrap
result still counts one line (`valueLines.length || 1`). -/
def sectionBoxContentLines (split : String → ℚ → List String) (w : ℚ)
    (rows : List KeyValueRow) : ℕ :=
  (rows.map (fun r => max 1 (split (jsOr (jsTrim r.value) "-") (w - 32)).length)).sum

/-- Realized height of `drawSectionBox` (source line 192):
`padY + headerH + padY + contentLines · rowGap + padY` with `padY = 4`,
`headerH = 9`, `rowGap = 4.8`. -/
def sectionBoxHeight (split : String → ℚ → List String) (w : ℚ)
    (rows : List KeyValueRow) : ℚ :=
  4 + 9 + 4 + (sectionBoxContentLines split w rows : ℚ) * (24 / 5) + 4

/-- Model of `unresolvedProductIds` (source lines 416–419): items whose
trimmed inline reference is empty contribute their trimmed
`productId ?? id ?? ""`, empty results dropped. -/
def unresolvedProductIds (invoice : InvoicePdfData) : List String :=
  (((invoice.items.getD []).filter
      (fun item => jsTrim (item.reference.getD "") = "")).map
    (fun item => jsTrim (item.productId.getD (item.id.getD "")))).filter (· ≠ "")

/-- The printed reference of a line item (source lines 423–426):
`inlineReference || resolvedReference || (productId ? productId : "-")`,
where `resolvedReference` is `productReferenceMap[productId]` when
`productId` is truthy and `""` otherwise. -/
def renderedReference (m : List (String × String)) (item : InvoicePdfItem) :
    String :=
  if jsTrim (item.reference.getD "") ≠ "" then jsTrim (item.reference.getD "")
  else
    jsOrOpt
      (if jsTrim (item.productId.getD (item.id.getD "")) ≠ ""
       then mapLookup m (jsTrim (item.productId.getD (item.id.getD "")))
       else some "")
      (if jsTrim (item.productId.getD (item.id.getD "")) ≠ ""
       then jsTrim (item.productId.getD (item.id.getD ""))
       else "-")

/-- One body row of the items table (source lines 422–437):
`[reference, description || "-", String(qty), money(unit), money(total)]`
with `qty = Number(quantity ?? 0)`, `unit = Number(unitPrice ?? 0)`,
`total = Number(totalPrice ?? qty * unit)`. -/
def itemDisplayRow (m : List (String × String)) (item : InvoicePdfItem) :
    List String :=
  [renderedReference m item,
   jsOr (jsTrim (item.description.getD "")) "-",
   qtyToString (item.quantity.getD 0),
   formatMoneyDt (item.unitPrice.getD 0),
   formatMoneyDt
     (item.totalPrice.getD ((item.quantity.getD 0) * (item.unitPrice.getD 0)))]

/-- Membership in the character class of the regex `[^a-z0-9-_]+` with the
`i` flag: ASCII letters of either case, digits, hyphen, underscore. -/
def isAllowedChar (c : Char) : Bool :=
  (97 ≤ c.toNat && c.toNat ≤ 122) || (65 ≤ c.toNat && c.toNat ≤ 90) ||
    (48 ≤ c.toNat && c.toNat ≤ 57) || c.toNat == 45 || c.toNat == 95

/-- Global replacement of `[^a-z0-9-_]+` by `"-"` as a left-to-right state
machine: `prevBad` records whether the previous character belonged to a
run already replaced. -/
def collapseBad : Bool → List Char → List Char
  | _, [] => []
  | prevBad, c :: cs =>
      if isAllowedChar c then c :: collapseBad false cs
      else if prevBad then collapseBad true cs
      else '-' :: collapseBad true cs

/-- The specification's reading of the same replacement, phrased directly
on maximal runs: a disallowed character and the whole run following it are
consumed at once and replaced by a single dash. -/
def runReplace : List Char → List Char
  | [] => []
  | c :: cs =>
      if isAllowedChar c then c :: runReplace cs
      else
        have hle : ∀ m : List Char,
            (m.dropWhile (fun d => !isAllowedChar d)).length ≤ m.length := by
          intro m
          induction m with
          | nil => simp [List.dropWhile]
          | cons a as ih =>
              by_cases ha : (!isAllowedChar a) = true
              · simp only [List.dropWhile, ha]
                exact Nat.le_succ_of_le ih
              · simp [List.dropWhile, ha]
        have : (cs.dropWhile (fun d => !isAllowedChar d)).length < (c :: cs).length :=
          Nat.lt_succ_of_le (hle cs)
        '-' :: runReplace (cs.dropWhile (fun d => !isAllowedChar d))
  termination_by l => l.length

/-- JS `String.prototype.toLowerCase` restricted to the characters the
sanitizer can produce (ASCII), where it maps `A`–`Z` to `a`–`z` and leaves
everything else unchanged. -/
def asciiToLower (c : Char) : Char :=
  if 65 ≤ c.toNat ∧ c.toNat ≤ 90 then Char.ofNat (c.toNat + 32) else c

/-- Model of the filename computation (source lines 539–540):
`(invoiceNumber || "invoice").replace(/[^a-z0-9-_]+/gi, "-").toLowerCase()`
suffixed with `.pdf`. -/
def safeFileName (invoiceNumber : String) : String :=
  String.mk ((collapseBad false (jsOr invoiceNumber "invoice").data).map
    asciiToLower) ++ ".pdf"

/-- Default logo URL (source line 52). -/
def DEFAULT_LOGO_URL : String := "/company/company_logo.png"

/-- A4 page width in mm as reported by jsPDF for `format: "a4"`. -/
def pageWidth : ℚ := 210

/-- Uniform horizontal margin (source line 276). -/
def marginX : ℚ := 20

/-- Header band height (source line 286). -/
def headerBandH : ℚ := 26

/-- Top of the detail boxes: `headerBandH + 10` (source line 388). -/
def contentTop : ℚ := headerBandH + 10

/-- Width of each detail box:
`(pageWidth − 2·marginX − boxGap) / 2` with `boxGap = 8` (source lines
389–390). -/
def halfWidth : ℚ := (pageWidth - marginX * 2 - 8) / 2

/-- The issue date printed in the Invoice Details box (source line 382):
`toDateSafe(invoice.issueDate) ?? toDateSafe(invoice.createdAt) ?? new
Date()`, where `now` is the clock reading of `new Date()`. -/
def resolvedIssueDate (invoice : InvoicePdfData) (now : ℤ) : ℤ :=
  ((toDateSafe invoice.issueDate).orElse
    (fun _ => toDateSafe invoice.createdAt)).getD now

/-- The company-block guard (source line 317): the block is drawn only when
a company record is present and has a truthy name, a truthy email, or a
non-empty phone/address list. -/
def companyVisible : Option InvoicePdfCompany → Bool
  | none => false
  | some c =>
      (c.name.getD "" ≠ "") || (c.email.getD "" ≠ "") ||
        ((c.phoneNumbers.getD []).length > 0) ||
        ((c.addresses.getD []).length > 0)

/-- External collaborators of one render: the logo fetch/decode, the image
dimension probe, the storage state, the catalog, the dynamic-import
outcome, the clock, the locale date formatter
(`Date.prototype.toLocaleDateString`) and jsPDF's `splitTextToSize`. -/
structure Env where
  fetchLogo : String → FetchOutcome
  imageDims : String → Option (ℚ × ℚ)
  storage : StorageState
  catalog : String → LookupResult
  importOk : Bool
  now : ℤ
  fmtDate : ℤ → String
  split : String → ℚ → List String

/-- Placement of the drawn logo (source lines 291–314). -/
structure RenderedLogo where
  x : ℚ
  y : ℚ
  w : ℚ
  h : ℚ
deriving Repr, DecidableEq

/-- The observable content of one generated document: everything the
pipeline draws or saves that the specification mentions, plus the list of
catalog ids fetched (`lookups`, the network-effect trace). -/
structure Document where
  logo : Option RenderedLogo
  companyBlock : Option InvoicePdfCompany
  headerTitle : String
  leftRows : List KeyValueRow
  rightRows : List KeyValueRow
  leftBoxH : ℚ
  rightBoxH : ℚ
  tableStartY : ℚ
  lookups : List String
  tableRows : List (List String)
  subtotalText : String
  taxText : String
  totalText : String
  fileName : String
deriving Repr, DecidableEq

/-- The abbreviation used by the reference-precedence statements: the
entries of the reference map a render of `invoice` builds. -/
def refEntries (env : Env) (invoice : InvoicePdfData) :
    List (String × String) :=
  (loadProductReferenceMap env.catalog env.importOk
    (unresolvedProductIds invoice)).entries

/-- The company identity one render uses (source line 282):
`options?.company ?? loadCompanyProfileFromStorage()`. -/
def companyOf (env : Env) (options : Option InvoicePdfOptions) :
    Option InvoicePdfCompany :=
  (options.bind (fun o => o.company)).orElse
    (fun _ => loadCompanyProfileFromStorage env.storage)

/-- The logo placement of one render (source lines 279–314): fetch and
decode the configured URL; on success scale to height 20 (falling back to
a 20×20 square without an aspect value), clamping the width to 34 while
preserving the aspect; on failure draw nothing. -/
def logoOf (env : Env) (options : Option InvoicePdfOptions) :
    Option RenderedLogo :=
  (loadImageAsDataUrl env.fetchLogo
      ((options.bind (fun o => o.logoUrl)).getD DEFAULT_LOGO_URL)).map (fun d =>
    match getImageAspect env.imageDims d with
    | none => ⟨pageWidth - marginX - 20, 5, 20, 20⟩
    | some r =>
        if 20 * r > 34 then ⟨pageWidth - marginX - 34, 5, 34, 34 / r⟩
        else ⟨pageWidth - marginX - 20 * r, 5, 20 * r, 20⟩)

/-- The body of `generateInvoicePDF` after input normalization (source
lines 268–540), as a pure function of the normalized invoice, the options
and the environment. -/
def renderDocument (env : Env) (invoice : InvoicePdfData)
    (options : Option InvoicePdfOptions) : Document :=
  let company := companyOf env options
  let logo := logoOf env options
  let issue := resolvedIssueDate invoice env.now
  let due := toDateSafe invoice.dueDate
  let invoiceNumber := invoice.invoiceNumber.getD ""
  let status := invoice.status.getD ""
  let cin := invoice.clientCIN.getD ""
  let clientEmail := (invoice.client.bind (fun c => c.email)).getD ""
  let clientPhone := (invoice.client.bind (fun c => c.phone)).getD ""
  let clientLocation := (invoice.client.bind (fun c => c.location)).getD ""
  let lRows : List KeyValueRow :=
    [⟨"Invoice :", jsOr invoiceNumber "-"⟩, ⟨"Issue :", env.fmtDate issue⟩]
      ++ (match due with
          | some d => [⟨"Due :", env.fmtDate d⟩]
          | none => [])
      ++ (if status ≠ "" then [⟨"Status :", status⟩] else [])
  let rRows : List KeyValueRow :=
    [⟨"Name :", (invoice.client.bind (fun c => c.name)).getD "-"⟩]
      ++ (if cin ≠ "" then [⟨"CIN :", cin⟩] else [])
      ++ (if clientEmail ≠ "" then [⟨"Email :", clientEmail⟩] else [])
      ++ (if clientPhone ≠ "" then [⟨"Phone :", clientPhone⟩] else [])
      ++ (if clientLocation ≠ "" then [⟨"Addr :", clientLocation⟩] else [])
  let leftH := sectionBoxHeight env.split halfWidth lRows
  let rightH := sectionBoxHeight env.split halfWidth rRows
  let refRes := loadProductReferenceMap env.catalog env.importOk
    (unresolvedProductIds invoice)
  { logo := logo
    companyBlock := if companyVisible company then company else none
    headerTitle := "INVOICE"
    leftRows := lRows
    rightRows := rRows
    leftBoxH := leftH
    rightBoxH := rightH
    tableStartY := contentTop + max leftH rightH + 12
    lookups := refRes.lookups
    tableRows := (invoice.items.getD []).map (itemDisplayRow refRes.entries)
    subtotalText := formatMoneyDt (invoice.subtotal.getD 0)
    taxText := formatMoneyDt (invoice.taxAmount.getD 0)
    totalText := formatMoneyDt (invoice.totalAmount.getD 0)
    fileName := safeFileName invoiceNumber }

/-- First positional argument of `generateInvoicePDF`: a legacy client or a
unified invoice record (the source receives it untyped as `arg1`). -/
inductive Arg1 where
  | clientArg (c : Client)
  | invoiceArg (i : InvoicePdfData)
deriving Repr, DecidableEq

/-- Second positional argument: absent (`undefined`), a legacy order, or an
options object.  Every present case is a truthy object at runtime. -/
inductive Arg2 where
  | undef
  | orderArg (o : Order)
  | optionsArg (o : InvoicePdfOptions)
deriving Repr, DecidableEq

/-- Third positional argument: absent or an options object. -/
inductive Arg3 where
  | undef
  | optionsArg (o : InvoicePdfOptions)
deriving Repr, DecidableEq

/-- The shape test at source line 232:
`Boolean(arg2) && typeof arg2 === "object"` — true exactly when the second
argument is present (all modelled objects are truthy and of type
`"object"`). -/
def isClientOrderCall : Arg2 → Bool
  | .undef => false
  | .orderArg _ => true
  | .optionsArg _ => true

/-- Property reads of `arg1 as Client` (source line 239): a genuine client
exposes its fields; an invoice record exposes none of the names the
normalizer reads (`cin`, `name`, `email`, `phone`, `location` are not
properties of `InvoicePdfData`), while its `status`/`createdAt` properties
do exist under those names. -/
def asClientView : Arg1 → Client
  | .clientArg c => c
  | .invoiceArg i =>
      { cin := none, name := none, email := none, phone := none,
        location := none, status := i.status, createdAt := i.createdAt }

/-- Property reads of `arg2 as Order` (source line 240): an options object
has none of the order properties. -/
def asOrderView : Arg2 → Order
  | .orderArg o => o
  | .optionsArg _ => {}
  | .undef => {}

/-- Property reads of `arg1 as InvoicePdfData` (source line 266): a client
object exposes only its `status` and `createdAt` under names the renderer
reads. -/
def asInvoiceView : Arg1 → InvoicePdfData
  | .invoiceArg i => i
  | .clientArg c => { status := c.status, createdAt := c.createdAt }

/-- The options candidate cast (source lines 233–235): `arg3` for a
client/order call, otherwise `arg2`; any truthy object is accepted as
options (an `Order` in that position would expose neither `logoUrl` nor
`company` — both read as absent). -/
def resolveOptions (a2 : Arg2) (a3 : Arg3) : Option InvoicePdfOptions :=
  if isClientOrderCall a2 then
    match a3 with
    | .optionsArg o => some o
    | .undef => none
  else
    match a2 with
    | .optionsArg o => some o
    | .orderArg _ => some {}
    | .undef => none

/-- The per-item mapping of the legacy normalization (source lines
251–258): copies `id`, `productId`, `description`, and clamps `quantity`,
`unitPrice`, `totalPrice` through `Number(x ?? 0)`.  It copies neither
`reference` nor `sku`, and an absent `totalPrice` becomes `0` (not
`quantity × unitPrice`). -/
def normalizeLegacyItem (item : OrderItem) : InvoicePdfItem :=
  { id := item.id
    productId := item.productId
    reference := none
    sku := none
    description := item.description
    quantity := some (item.quantity.getD 0)
    unitPrice := some (item.unitPrice.getD 0)
    totalPrice := some (item.totalPrice.getD 0) }

/-- The legacy-input normalization (source lines 237–265): maps a
`(client, order)` pair to the unified record.  Note that it leaves
`issueDate`/`dueDate`/`status`/`notes` unset and clamps `totalAmount`
through `Number(x ?? 0)`. -/
def normalizeLegacy (client : Client) (order : Order) : InvoicePdfData :=
  { invoiceNumber := order.orderNumber
    issueDate := none
    dueDate := none
    createdAt := order.createdAt
    status := none
    clientCIN := client.cin
    client := some { name := client.name, email := client.email,
                     phone := client.phone, location := client.location }
    items := some ((order.items.getD []).map normalizeLegacyItem)
    subtotal := order.subtotal
    taxRate := order.taxRate
    taxAmount := order.taxAmount
    totalAmount := some (order.totalAmount.getD 0)
    notes := none }

/-- The exported entry point (source lines 227–541): classify the call
shape from the second argument alone, normalize legacy input, resolve the
options, and render. -/
def generateInvoicePDF (env : Env) (a1 : Arg1) (a2 : Arg2) (a3 : Arg3) :
    Document :=
  let invoice :=
    if isClientOrderCall a2
    then normalizeLegacy (asClientView a1) (asOrderView a2)
    else asInvoiceView a1
  renderDocument env invoice (resolveOptions a2 a3)

/-- A splitter on which every value fits on one wrapped line. -/
def splitOne : String → ℚ → List String := fun s _ => [s]

/-- Concrete environment for witnesses and counterexamples: failing logo
fetch, absent storage, all-missing catalog, clock at `1000`, date
formatter printing the epoch value. -/
def envA : Env :=
  { fetchLogo := fun _ => .netError
    imageDims := fun _ => none
    storage := .absent
    catalog := fun _ => .missing
    importOk := true
    now := 1000
    fmtDate := fun t => toString t
    split := splitOne }

/-- Invoice with one line item carrying an inline reference. -/
def invRefInline : InvoicePdfData :=
  { items := some [{ reference := some "R1", productId := some "P1" }] }

/-- Legacy client for the line-total counterexample. -/
def clientLegacy : Client := { name := some "Alice" }

/-- Legacy order whose single item has `quantity = 3`, `unitPrice = 10`
and no `totalPrice`. -/
def orderLegacy : Order :=
  { items := some [{ quantity := some 3, unitPrice := some 10 }] }

/-- Invoice producing 2 left rows (no due date, no status) and 5 right
rows (name, CIN, email, phone, address all present). -/
def invBoxes : InvoicePdfData :=
  { invoiceNumber := some "N1"
    clientCIN := some "C"
    client := some { name := some "Alice", email := some "a@x",
                     phone := some "1", location := some "L" }
    items := some []
    totalAmount := some 0 }

/-- Invoice with no `issueDate` but a valid `createdAt` of epoch value 5. -/
def invCreatedAt : InvoicePdfData :=
  { createdAt := some (.dateObj (some 5)) }

/-- Two generic key/value rows. -/
def rowsTwo : List KeyValueRow := [⟨"A :", "a"⟩, ⟨"B :", "b"⟩]

/-- Five generic key/value rows. -/
def rowsFive : List KeyValueRow :=
  [⟨"A :", "a"⟩, ⟨"B :", "b"⟩, ⟨"C :", "c"⟩, ⟨"D :", "d"⟩, ⟨"E :", "e"⟩]

theorem mem_dedupFold (l : List String) (acc : List String) (x : String) :
    x ∈ l.foldl (fun a y => if y ∈ a then a else a ++ [y]) acc ↔
      x ∈ acc ∨ x ∈ l := by
  induction l generalizing acc with
  | nil => simp
  | cons a as ih =>
      simp only [List.foldl_cons]
      by_cases h : a ∈ acc
      · rw [if_pos h, ih]
        simp only [List.mem_cons]
        constructor
        · rintro (hx | hx)
          · exact Or.inl hx
          · exact Or.inr (Or.inr hx)
        · rintro (hx | hx | hx)
          · exact Or.inl hx
          · exact Or.inl (hx ▸ h)
          · exact Or.inr hx
      · rw [if_neg h, ih]
        simp only [List.mem_append, List.mem_singleton, List.mem_cons]
        tauto

theorem nodup_dedupFold (l : List String) (acc : List String)
    (h : acc.Nodup) :
    (l.foldl (fun a y => if y ∈ a then a else a ++ [y]) acc).Nodup := by
  induction l generalizing acc with
  | nil => simpa using h
  | cons a as ih =>
      simp only [List.foldl_cons]
      by_cases ha : a ∈ acc
      · rw [if_pos ha]; exact ih acc h
      · rw [if_neg ha]
        refine ih _ ?_
        rw [List.nodup_append]
        exact ⟨h, List.nodup_singleton a, by
          intro x hx hmem
          rw [List.mem_singleton] at hmem
          exact ha (hmem ▸ hx)⟩

theorem mem_insertionDedup (l : List String) (x : String) :
    x ∈ insertionDedup l ↔ x ∈ l := by
  unfold insertionDedup
  rw [mem_dedupFold]
  simp

theorem nodup_insertionDedup (l : List String) :
    (insertionDedup l).Nodup :=
  nodup_dedupFold l [] List.nodup_nil

theorem fst_resolveOne (catalog : String → LookupResult) (x : String) :
    (resolveOne catalog x).1 = x := by
  unfold resolveOne
  cases catalog x <;> rfl

theorem snd_resolveOne_fallback (catalog : String → LookupResult)
    (x : String)
    (h : catalog x = .missing ∨ catalog x = .lookupError) :
    (resolveOne catalog x).2 = x := by
  rcases h with h | h <;> simp [resolveOne, h]

theorem mapLookup_map_resolveOne (catalog : String → LookupResult)
    (l : List String) (id : String) (h : id ∈ l) :
    mapLookup (l.map (resolveOne catalog)) id
      = some (resolveOne catalog id).2 := by
  induction l with
  | nil => cases h
  | cons a as ih =>
      simp only [List.map_cons, mapLookup, List.find?]
      by_cases ha : a = id
      · subst ha
        rw [show ((resolveOne catalog a).1 == a) = true by
              rw [fst_resolveOne]; exact beq_self_eq_true a]
        rfl
      · rw [show ((resolveOne catalog a).1 == id) = false by
              rw [fst_resolveOne]; exact beq_eq_false_iff_ne.mpr ha]
        rcases List.mem_cons.mp h with h' | h'
        · exact absurd h'.symm ha
        · simpa [mapLookup] using ih h'

theorem collapse_runReplace (l : List Char) :
    collapseBad false l = runReplace l ∧
      collapseBad true l
        = runReplace (l.dropWhile (fun d => !isAllowedChar d)) := by
  induction l with
  | nil => constructor <;> simp [runReplace.eq_def, List.dropWhile, collapseBad]
  | cons c cs ih =>
      by_cases h : isAllowedChar c
      · have hdrop : (c :: cs).dropWhile (fun d => !isAllowedChar d)
            = c :: cs := by
          simp [List.dropWhile, h]
        constructor
        · rw [runReplace]
          simp [collapseBad, h, ih.1]
        · rw [hdrop, runReplace]
          simp [collapseBad, h, ih.1]
      · have hdrop : (c :: cs).dropWhile (fun d => !isAllowedChar d)
            = cs.dropWhile (fun d => !isAllowedChar d) := by
          simp [List.dropWhile, h]
        constructor
        · rw [runReplace]
          simp [collapseBad, h, ih.2]
        · rw [hdrop]
          simp [collapseBad, h, ih.2]

theorem contentLines_of_single (split : String → ℚ → List String) (w : ℚ)
    (rows : List KeyValueRow)
    (h : ∀ row ∈ rows, (split (jsOr (jsTrim row.value) "-") (w - 32)).length = 1) :
    sectionBoxContentLines split w rows = rows.length := by
  induction rows with
  | nil => rfl
  | cons a as ih =>
      unfold sectionBoxContentLines at ih ⊢
      simp only [List.map_cons, List.sum_cons, List.length_cons]
      rw [h a (List.mem_cons_self a as),
        ih (fun row hr => h row (List.mem_cons_of_mem a hr))]
      omega

theorem jsTrim_empty : jsTrim "" = "" := by decide

theorem map_jsTrim_getD (o : Option String) :
    (o.map jsTrim).getD "" = jsTrim (o.getD "") := by
  cases o <;> simp [jsTrim_empty]

theorem presentList_eq_none (o : Option (List String)) :
    presentList o = none ↔ ∀ x ∈ o.getD [], jsTrim x = "" := by
  cases o with
  | none => simp [presentList]
  | some l =>
      simp only [presentList, Option.map_some', Option.getD_some]
      by_cases h : (l.map jsTrim).filter (· ≠ "") = []
      · rw [List.filter_eq_nil_iff] at h
        simp only [List.mem_map, decide_not] at h
        constructor
        · intro _ x hx
          have := h (jsTrim x) ⟨x, hx, rfl⟩
          simpa using this
        · intro _
          rw [if_pos]
          rw [List.filter_eq_nil_iff]
          simp only [List.mem_map, decide_not]
          exact fun a ha => h a ha
      · simp only [if_neg h]
        constructor
        · intro hc
          exact absurd hc (by simp)
        · intro hall
          exfalso
          apply h
          rw [List.filter_eq_nil_iff]
          intro a ha
          obtain ⟨x, hx, rfl⟩ := List.mem_map.mp ha
          simp [hall x hx]

/-- C3: invoking `generateInvoicePDF` with a legacy `(client, order)` pair
produces output identical to invoking it with the pre-normalized unified
invoice record that the entry-point normalization maps that pair to — the
same `Document` value in every observable field (invoice number, dates,
items, totals, filename). -/
theorem legacy_pair_equals_prenormalized_record (env : Env) (c : Client)
    (o : Order) :
    generateInvoicePDF env (.clientArg c) (.orderArg o) .undef
      = generateInvoicePDF env (.invoiceArg (normalizeLegacy c o)) .undef
          .undef := rfl

/-- C10: the entry point classifies its input shape solely by whether the
second argument is a (truthy) object — any present second argument, an
order or an options record alike, makes it a legacy call; consequently a
unified invoice record passed together with an options object is treated
as a `(client, order)` pair: the invoice is read as a `Client` (yielding
no usable fields) and the options as an `Order`, and the options are not
applied. -/
theorem second_object_argument_forces_legacy_call :
    (∀ o : Order, isClientOrderCall (.orderArg o) = true)
    ∧ (∀ o : InvoicePdfOptions, isClientOrderCall (.optionsArg o) = true)
    ∧ isClientOrderCall .undef = false
    ∧ (∀ (env : Env) (i : InvoicePdfData) (o : InvoicePdfOptions),
        generateInvoicePDF env (.invoiceArg i) (.optionsArg o) .undef
          = renderDocument env
              (normalizeLegacy (asClientView (.invoiceArg i))
                (asOrderView (.optionsArg o))) none) :=
  ⟨fun _ => rfl, fun _ => rfl, rfl, fun _ _ _ => rfl⟩

/-- C4: whenever fetching the logo URL yields a network failure, a
non-success response, or a decode failure, `loadImageAsDataUrl` returns
`none` instead of propagating an error, and the render still completes,
producing the document with no logo drawn. -/
theorem logo_failure_renders_without_logo (env : Env)
    (inv : InvoicePdfData) (opts : Option InvoicePdfOptions)
    (h : env.fetchLogo ((opts.bind (fun o => o.logoUrl)).getD
          DEFAULT_LOGO_URL) = .netError
       ∨ env.fetchLogo ((opts.bind (fun o => o.logoUrl)).getD
          DEFAULT_LOGO_URL) = .notOk
       ∨ env.fetchLogo ((opts.bind (fun o => o.logoUrl)).getD
          DEFAULT_LOGO_URL) = .ok none) :
    loadImageAsDataUrl env.fetchLogo
        ((opts.bind (fun o => o.logoUrl)).getD DEFAULT_LOGO_URL) = none
    ∧ (renderDocument env inv opts).logo = none := by
  have hl : loadImageAsDataUrl env.fetchLogo
      ((opts.bind (fun o => o.logoUrl)).getD DEFAULT_LOGO_URL) = none := by
    rcases h with h | h | h <;> simp [loadImageAsDataUrl, h]
  refine ⟨hl, ?_⟩
  show logoOf env opts = none
  unfold logoOf
  rw [hl]
  rfl

/-- C4 witness: with the failing fetch of `envA`, the default logo URL
decodes to nothing and the concrete render carries no logo. -/
theorem logo_failure_renders_without_logo_witness :
    loadImageAsDataUrl envA.fetchLogo
        (((none : Option InvoicePdfOptions).bind (fun o => o.logoUrl)).getD
          DEFAULT_LOGO_URL) = none
    ∧ (renderDocument envA {} none).logo = none :=
  logo_failure_renders_without_logo envA {} none (Or.inl rfl)

/-- C6: the saved filename is the invoice number with every maximal run of
characters other than ASCII alphanumerics, hyphen and underscore replaced
by a dash and the result lowercased, with `"invoice"` substituted when the
invoice number is empty or absent, suffixed with `.pdf`; in particular
`"INV/2024#07"` yields `"inv-2024-07.pdf"` and the empty invoice number
yields `"invoice.pdf"`. -/
theorem filename_is_sanitized_invoice_number :
    (∀ (env : Env) (inv : InvoicePdfData) (opts : Option InvoicePdfOptions),
        (renderDocument env inv opts).fileName
          = safeFileName (inv.invoiceNumber.getD ""))
    ∧ (∀ s : String,
        safeFileName s
          = String.mk ((runReplace (jsOr s "invoice").data).map asciiToLower)
              ++ ".pdf")
    ∧ safeFileName "INV/2024#07" = "inv-2024-07.pdf"
    ∧ safeFileName "" = "invoice.pdf" := by
  refine ⟨fun _ _ _ => rfl, fun s => ?_, by decide, by decide⟩
  unfold safeFileName
  rw [(collapse_runReplace (jsOr s "invoice").data).1]

/-- C8 counterexample: an invoice with `issueDate` absent but a valid
`createdAt` (epoch 5) prints `createdAt`, not the render-time clock: with
the clock at 1000 the Invoice Details box shows `"5"`, not `"1000"`. -/
theorem issue_date_not_always_clock :
    invCreatedAt.issueDate = none
    ∧ resolvedIssueDate invCreatedAt envA.now = 5
    ∧ (renderDocument envA invCreatedAt none).leftRows.get? 1
        = some ⟨"Issue :", "5"⟩
    ∧ envA.now = 1000
    ∧ ("5" : String) ≠ "1000" :=
  ⟨rfl, rfl, by decide, rfl, by decide⟩

/-- C8 amended: the printed issue date is
`toDateSafe issueDate ?? toDateSafe createdAt ?? now`; it defaults to the
current time at render only when both `issueDate` and `createdAt` are
absent or invalid, and the Invoice Details box always prints exactly this
resolved date in its second row. -/
theorem issue_date_fallback_chain :
    (∀ (inv : InvoicePdfData) (now : ℤ),
        toDateSafe inv.issueDate = none → toDateSafe inv.createdAt = none →
        resolvedIssueDate inv now = now)
    ∧ (∀ (env : Env) (inv : InvoicePdfData) (opts : Option InvoicePdfOptions),
        (renderDocument env inv opts).leftRows.get? 1
          = some ⟨"Issue :", env.fmtDate (resolvedIssueDate inv env.now)⟩) := by
  constructor
  · intro inv now h1 h2
    unfold resolvedIssueDate
    rw [h1]
    simp [Option.orElse, h2]
  · intro env inv opts
    rfl

/-- C8 amended witness: with both dates absent the clock value 42 is
printed. -/
theorem issue_date_fallback_chain_witness :
    resolvedIssueDate {} 42 = 42 :=
  (issue_date_fallback_chain).1 {} 42 rfl rfl

/-- C2 counterexample: a legacy `(client, order)` call whose single item
has `quantity = 3`, `unitPrice = 10` and no `totalPrice` renders a line
total of `"0.00 Dt"` — the legacy normalization clamps the absent
`totalPrice` to `0` before the `quantity × unitPrice` fallback can apply,
so the claimed `"30.00 Dt"` is not produced. -/
theorem legacy_missing_line_total_renders_zero :
    (generateInvoicePDF envA (.clientArg clientLegacy)
        (.orderArg orderLegacy) .undef).tableRows
      = [["-", "-", "3", "10.00 Dt", "0.00 Dt"]]
    ∧ ("0.00 Dt" : String) ≠ "30.00 Dt" := by
  have h10 : formatMoneyDt ((10 : ℚ)) = "10.00 Dt" := by
    simp only [formatMoneyDt, toFixed2]
    norm_num [round_eq]
    decide
  have h0 : formatMoneyDt ((0 : ℚ)) = "0.00 Dt" := by
    simp only [formatMoneyDt, toFixed2]
    norm_num [round_eq]
    decide
  refine ⟨?_, by decide⟩
  show (renderDocument envA (normalizeLegacy clientLegacy orderLegacy)
      none).tableRows = _
  show [itemDisplayRow []
      (normalizeLegacyItem { quantity := some 3, unitPrice := some 10 })] = _
  simp only [itemDisplayRow, normalizeLegacyItem, Option.getD_some,
    Option.getD_none]
  rw [h10, h0]
  decide

/-- C2 amended: a rendered line item whose `totalPrice` reaches the table
builder as absent gets `quantity × unitPrice` (so the unified-record entry
renders `30.00 Dt` for quantity 3 at 10); items supplied through the
legacy `(client, order)` entry, however, are normalized with
`Number(totalPrice ?? 0)`, so an absent legacy `totalPrice` becomes `0`
and renders `0.00 Dt`. -/
theorem line_total_defaults :
    (∀ (env : Env) (inv : InvoicePdfData) (opts : Option InvoicePdfOptions),
        (renderDocument env inv opts).tableRows
          = (inv.items.getD []).map (itemDisplayRow (refEntries env inv)))
    ∧ (∀ (m : List (String × String)) (item : InvoicePdfItem),
        item.totalPrice = none →
        (itemDisplayRow m item).get? 4
          = some (formatMoneyDt
              ((item.quantity.getD 0) * (item.unitPrice.getD 0))))
    ∧ (∀ (m : List (String × String)) (it : OrderItem),
        it.totalPrice = none →
        (itemDisplayRow m (normalizeLegacyItem it)).get? 4
          = some (formatMoneyDt 0))
    ∧ formatMoneyDt (3 * 10) = "30.00 Dt" := by
  refine ⟨fun _ _ _ => rfl, ?_, ?_, by
    simp only [formatMoneyDt, toFixed2]
    norm_num [round_eq]
    decide⟩
  · intro m item h
    simp [itemDisplayRow, h]
  · intro m it h
    simp [itemDisplayRow, normalizeLegacyItem, h]

/-- C2 amended witness: the quantity-3, price-10 item with no `totalPrice`
renders `"30.00 Dt"` as its line total. -/
theorem line_total_defaults_witness :
    ((itemDisplayRow [] { quantity := some 3, unitPrice := some 10 }).get? 4)
      = some "30.00 Dt" := by
  rw [(line_total_defaults).2.1 []
    { quantity := some 3, unitPrice := some 10 } rfl]
  simp only [Option.getD_some, Option.some.injEq, formatMoneyDt, toFixed2]
  norm_num [round_eq]
  decide

/-- C5 counterexample: with 2 left rows and 5 right rows of single-line
values at equal width, the right box is strictly taller, but the items
table does not start at `contentTop + max(leftHeight, rightHeight)` — the
code adds a further fixed gap of 12 mm. -/
theorem table_not_anchored_at_exact_max :
    (renderDocument envA invBoxes none).rightBoxH
        > (renderDocument envA invBoxes none).leftBoxH
    ∧ (renderDocument envA invBoxes none).tableStartY
        ≠ contentTop + max (renderDocument envA invBoxes none).leftBoxH
            (renderDocument envA invBoxes none).rightBoxH := by
  have hL : (renderDocument envA invBoxes none).leftBoxH = 153 / 5 := by
    simp [renderDocument, sectionBoxHeight, sectionBoxContentLines, envA,
      invBoxes, splitOne, jsOr, jsTrim, toDateSafe]
    norm_num
  have hR : (renderDocument envA invBoxes none).rightBoxH = 45 := by
    simp [renderDocument, sectionBoxHeight, sectionBoxContentLines, envA,
      invBoxes, splitOne, jsOr, jsTrim, toDateSafe]
    norm_num
  have hT : (renderDocument envA invBoxes none).tableStartY
      = contentTop + max (renderDocument envA invBoxes none).leftBoxH
          (renderDocument envA invBoxes none).rightBoxH + 12 := rfl
  constructor
  · rw [hL, hR]
    norm_num
  · rw [hT, hL, hR, max_eq_right (by norm_num : (153 : ℚ) / 5 ≤ 45)]
    norm_num

/-- C5 amended: each section box reports its true height
(`2·padding + header + padding + wrapped-line-count · line height`), a
5-row panel is strictly taller than a 2-row panel at equal width when each
value wraps to a single line, and the items table starts at
`contentTop + max(leftHeight, rightHeight) + 12`. -/
theorem box_heights_and_table_anchor :
    (∀ (env : Env) (inv : InvoicePdfData) (opts : Option InvoicePdfOptions),
        (renderDocument env inv opts).tableStartY
          = contentTop + max (renderDocument env inv opts).leftBoxH
              (renderDocument env inv opts).rightBoxH + 12)
    ∧ (∀ (split : String → ℚ → List String) (w : ℚ)
        (l r : List KeyValueRow),
        (∀ row ∈ l, (split (jsOr (jsTrim row.value) "-") (w - 32)).length = 1) →
        (∀ row ∈ r, (split (jsOr (jsTrim row.value) "-") (w - 32)).length = 1) →
        l.length = 2 → r.length = 5 →
        sectionBoxHeight split w l < sectionBoxHeight split w r) := by
  refine ⟨fun _ _ _ => rfl, ?_⟩
  intro split w l r hl hr h2 h5
  unfold sectionBoxHeight
  rw [contentLines_of_single split w l hl,
    contentLines_of_single split w r hr, h2, h5]
  norm_num

/-- C5 amended witness: with a single-line splitter, two generic rows give
a strictly smaller box than five at width 81. -/
theorem box_heights_and_table_anchor_witness :
    sectionBoxHeight splitOne 81 rowsTwo
      < sectionBoxHeight splitOne 81 rowsFive :=
  (box_heights_and_table_anchor).2 splitOne 81 rowsTwo rowsFive
    (fun _ _ => rfl) (fun _ _ => rfl) rfl rfl

/-- C9: the stored company identity is present only if at least one of its
fields (name, email, phone numbers, addresses) is non-empty after
trimming; otherwise — including on JSON parse failure or an absent storage
entry — the loader returns `none`, and when no company is available the
document renders without a company block (the render itself is a total
function and never aborts). -/
theorem company_present_iff_some_field_nonempty :
    loadCompanyProfileFromStorage .absent = none
    ∧ loadCompanyProfileFromStorage .invalidJson = none
    ∧ (∀ p : ParsedCompany,
        (loadCompanyProfileFromStorage (.parsed p)).isSome = true ↔
          (jsTrim (p.name.getD "") ≠ "" ∨ jsTrim (p.email.getD "") ≠ ""
           ∨ (∃ x ∈ p.phoneNumbers.getD [], jsTrim x ≠ "")
           ∨ (∃ x ∈ p.addresses.getD [], jsTrim x ≠ "")))
    ∧ (∀ (env : Env) (inv : InvoicePdfData) (opts : Option InvoicePdfOptions),
        companyOf env opts = none →
        (renderDocument env inv opts).companyBlock = none) := by
  refine ⟨rfl, rfl, ?_, ?_⟩
  · intro p
    simp only [loadCompanyProfileFromStorage]
    split
    next h =>
      obtain ⟨h1, h2, h3, h4⟩ := h
      rw [map_jsTrim_getD] at h1 h2
      simp only [Option.isSome_none, Bool.false_eq_true, false_iff]
      push_neg
      exact ⟨h1, h2, (presentList_eq_none _).mp h3,
        (presentList_eq_none _).mp h4⟩
    next h =>
      simp only [Option.isSome_some, true_iff]
      by_contra hc
      push_neg at hc
      obtain ⟨hc1, hc2, hc3, hc4⟩ := hc
      exact h ⟨by rw [map_jsTrim_getD]; exact hc1,
        by rw [map_jsTrim_getD]; exact hc2,
        (presentList_eq_none _).mpr hc3, (presentList_eq_none _).mpr hc4⟩
  · intro env inv opts h
    have hb : (renderDocument env inv opts).companyBlock
        = if companyVisible (companyOf env opts) then companyOf env opts
          else none := rfl
    rw [hb, h]
    rfl

/-- C9 witness: with absent storage and no options the concrete render has
no company block. -/
theorem company_present_iff_some_field_nonempty_witness :
    (renderDocument envA {} none).companyBlock = none :=
  (company_present_iff_some_field_nonempty).2.2.2 envA {} none rfl

/-- C7: the reference resolver performs no catalog lookup when nothing
remains after dropping empty ids (in particular for an empty id list), its
lookups are de-duplicated, and each looked-up id whose catalog record is
missing or whose lookup errors is mapped to itself, the whole resolution
being a total function that never fails. -/
theorem resolver_dedups_and_falls_back (catalog : String → LookupResult)
    (importOk : Bool) (productIds : List String) :
    (productIds.filter (· ≠ "") = [] →
        loadProductReferenceMap catalog importOk productIds = ⟨[], []⟩)
    ∧ (loadProductReferenceMap catalog importOk productIds).lookups.Nodup
    ∧ (∀ id,
        id ∈ (loadProductReferenceMap catalog importOk productIds).lookups →
        (catalog id = .missing ∨ catalog id = .lookupError) →
        mapLookup (loadProductReferenceMap catalog importOk
            productIds).entries id = some id) := by
  refine ⟨?_, ?_, ?_⟩
  · intro h
    unfold loadProductReferenceMap
    rw [h]
    rfl
  · simp only [loadProductReferenceMap]
    split_ifs with h1 h2
    · exact List.nodup_nil
    · exact nodup_insertionDedup _
    · exact List.nodup_nil
  · intro id hid hcat
    simp only [loadProductReferenceMap] at hid ⊢
    split_ifs at hid ⊢ with h1 h2
    · exact absurd hid (List.not_mem_nil id)
    · have hmem : id ∈ insertionDedup (productIds.filter (· ≠ "")) := hid
      show mapLookup ((insertionDedup (productIds.filter (· ≠ ""))).map
        (resolveOne catalog)) id = some id
      rw [mapLookup_map_resolveOne catalog _ id hmem,
        snd_resolveOne_fallback catalog id hcat]
    · exact absurd hid (List.not_mem_nil id)

/-- C7 witness: with an all-missing catalog, the duplicated id list
`["a", "a"]` is looked up once and `"a"` falls back to itself. -/
theorem resolver_dedups_and_falls_back_witness :
    mapLookup (loadProductReferenceMap envA.catalog true
        ["a", "a"]).entries "a" = some "a" :=
  (resolver_dedups_and_falls_back envA.catalog true ["a", "a"]).2.2 "a"
    (by decide) (Or.inl rfl)

/-- C1: every rendered line-item reference obeys the exact precedence
inline reference (trimmed, non-empty) → catalog-resolved reference → raw
product identifier → placeholder dash, and the catalog ids a render looks
up all come from items whose inline reference is empty or absent. -/
theorem reference_precedence (env : Env) (inv : InvoicePdfData)
    (opts : Option InvoicePdfOptions) :
    ((renderDocument env inv opts).tableRows
        = (inv.items.getD []).map (itemDisplayRow (refEntries env inv)))
    ∧ (∀ item : InvoicePdfItem,
        (itemDisplayRow (refEntries env inv) item).get? 0
          = some (renderedReference (refEntries env inv) item))
    ∧ (∀ item : InvoicePdfItem,
        (jsTrim (item.reference.getD "") ≠ "" →
            renderedReference (refEntries env inv) item
              = jsTrim (item.reference.getD ""))
        ∧ (∀ r : String, jsTrim (item.reference.getD "") = "" →
            jsTrim (item.productId.getD (item.id.getD "")) ≠ "" →
            mapLookup (refEntries env inv)
                (jsTrim (item.productId.getD (item.id.getD ""))) = some r →
            r ≠ "" →
            renderedReference (refEntries env inv) item = r)
        ∧ (jsTrim (item.reference.getD "") = "" →
            jsTrim (item.productId.getD (item.id.getD "")) ≠ "" →
            (mapLookup (refEntries env inv)
                  (jsTrim (item.productId.getD (item.id.getD ""))) = none
             ∨ mapLookup (refEntries env inv)
                  (jsTrim (item.productId.getD (item.id.getD ""))) = some "") →
            renderedReference (refEntries env inv) item
              = jsTrim (item.productId.getD (item.id.getD "")))
        ∧ (jsTrim (item.reference.getD "") = "" →
            jsTrim (item.productId.getD (item.id.getD "")) = "" →
            renderedReference (refEntries env inv) item = "-"))
    ∧ (∀ id, id ∈ (renderDocument env inv opts).lookups →
        ∃ item, item ∈ inv.items.getD []
          ∧ jsTrim (item.reference.getD "") = ""
          ∧ jsTrim (item.productId.getD (item.id.getD "")) = id) := by
  refine ⟨rfl, fun _ => rfl, ?_, ?_⟩
  · intro item
    refine ⟨?_, ?_, ?_, ?_⟩
    · intro h
      unfold renderedReference
      rw [if_pos h]
    · intro r h hp hm hr
      unfold renderedReference
      rw [if_neg (fun hc => hc h), if_pos hp, if_pos hp, hm]
      simp [jsOrOpt, hr]
    · intro h hp hm
      unfold renderedReference
      rw [if_neg (fun hc => hc h), if_pos hp, if_pos hp]
      rcases hm with hm | hm <;> rw [hm] <;> simp [jsOrOpt]
    · intro h hp
      unfold renderedReference
      rw [if_neg (fun hc => hc h), if_neg (fun hc => hc hp),
        if_neg (fun hc => hc hp)]
      simp [jsOrOpt]
  · intro id hid
    have hid' : id ∈ (loadProductReferenceMap env.catalog env.importOk
        (unresolvedProductIds inv)).lookups := hid
    simp only [loadProductReferenceMap] at hid'
    split_ifs at hid' with h1 h2
    · exact absurd hid' (List.not_mem_nil id)
    · have hmem : id ∈ (unresolvedProductIds inv).filter (· ≠ "") :=
        (mem_insertionDedup _ id).mp hid'
      have h2 : id ∈ unresolvedProductIds inv := (List.mem_filter.mp hmem).1
      unfold unresolvedProductIds at h2
      rw [List.mem_filter] at h2
      obtain ⟨hmap, _⟩ := h2
      obtain ⟨item, hitem, heq⟩ := List.mem_map.mp hmap
      rw [List.mem_filter] at hitem
      exact ⟨item, hitem.1, of_decide_eq_true hitem.2, heq⟩
    · exact absurd hid' (List.not_mem_nil id)

/-- C1 witness: an item carrying inline reference `"R1"` prints `"R1"`. -/
theorem reference_precedence_witness :
    renderedReference (refEntries envA invRefInline)
        { reference := some "R1", productId := some "P1" } = "R1" :=
  ((reference_precedence envA invRefInline none).2.2.1
    { reference := some "R1", productId := some "P1" }).1 (by decide)

end InvoiceGen
